import Mathlib

/-!
Verification of the space-time-volume core of `video_to_spacetime.py`
(`SpaceTimeVisualizer`): volume construction and per-channel
normalization (`__init__`, lines 34-41), the three slicing views
(`update`, lines 136-167; `start_animation`, lines 266-277), the
FPS-textbox handler (`update_fps_from_textbox`, lines 235-258), the
export path and the export pipeline (`export_button_clicked`, lines
283-324), and frame loading (`_load_media`, lines 84-115).

Pixel values are modelled as rationals (`ℚ`); decoded media yields
integer values in `[0, 255]`, and `astype(float)` (line 35) is the
identity on this model.  A frame is a list of rows, a row a list of
pixels, a pixel a list of channel values; a volume is a list of frames,
indexed `(t, y, x, c)` exactly as the numpy array of the source.
-/

set_option allowUnsafeReducibility true

attribute [semireducible] Rat.add Rat.sub Rat.mul Rat.inv Rat.neg Rat.div

/-- `≤` on `ℚ` is antisymmetric (needed by `List.min?_eq_some_iff`). -/
instance : Std.Antisymm (fun (a b : ℚ) => a ≤ b) := ⟨fun h h2 => le_antisymm h h2⟩

namespace VideoToSpacetime

/-- A pixel: the list of its channel values. -/
abbrev Pixel := List ℚ

/-- A row of pixels. -/
abbrev Row := List Pixel

/-- A decoded frame: rows of pixels, indexed `(y, x, c)`. -/
abbrev Frame := List Row

/-- The space-time volume: frames stacked along a leading time axis,
indexed `(t, y, x, c)` (source line 34). -/
abbrev Volume := List Frame

/-- The `(height, width, channels)` shape of a frame, defined only when the
frame is rectangular (as every numpy array produced by the decoders is). -/
def frameShape? (f : Frame) : Option (ℕ × ℕ × ℕ) :=
  let h := f.length
  let w := (f.headD []).length
  let c := ((f.headD []).headD []).length
  if f.all fun row => row.length = w ∧ row.all fun px => px.length = c then
    some (h, w, c)
  else
    none

/-- `_load_media` (lines 112-113): raises `ValueError` when no frames could
be decoded, otherwise returns the frame list. -/
def loadMedia (frames : List Frame) : Except String (List Frame) :=
  if frames.isEmpty then
    .error "Could not load frames"
  else
    .ok frames

/-- `np.stack(frames, axis=0)` (line 34): numpy raises a `ValueError` for an
empty sequence and when the input arrays do not all share one shape;
otherwise the stacked volume is the frame list itself. -/
def npStack (frames : List Frame) : Except String Volume :=
  match frames with
  | [] => .error "need at least one array to stack"
  | f :: _ =>
    if (frameShape? f).isSome ∧ frames.all fun g => frameShape? g = frameShape? f then
      .ok frames
    else
      .error "all input arrays must have the same shape"

/-- `volume.shape[0]`: the number of frames, `self.time` (line 43). -/
def shapeT (vol : Volume) : ℕ := vol.length

/-- `volume.shape[1]`: `self.height` (line 43). -/
def shapeH (vol : Volume) : ℕ := (vol.headD []).length

/-- `volume.shape[2]`: `self.width` (line 43). -/
def shapeW (vol : Volume) : ℕ := ((vol.headD []).headD []).length

/-- `volume.shape[-1]`: `self.channels`, the channel count (lines 37, 43). -/
def numChannels (vol : Volume) : ℕ := (((vol.headD []).headD []).headD []).length

/-- `volume[t, y, x, c]` (with a default of `0` outside the array, where
numpy would raise). -/
def getV (vol : Volume) (t y x c : ℕ) : ℚ :=
  ((((vol.getD t []).getD y []).getD x []).getD c 0)

/-- `self.volume[..., c]` flattened to the list of all `(t, y, x)` values of
channel `c` (lines 38-39 read exactly these values for `min`/`max`). -/
def channelValues (vol : Volume) (c : ℕ) : List ℚ :=
  vol.flatMap fun fr => fr.flatMap fun row => row.filterMap fun px => px[c]?

/-- Rewrite channel `c` of one pixel with `f`, leaving other channels
untouched (the effect of `volume[..., c] = ...` on a single pixel). -/
def setChan (f : ℚ → ℚ) : ℕ → Pixel → Pixel
  | _, [] => []
  | 0, v :: vs => f v :: vs
  | n + 1, v :: vs => v :: setChan f n vs

/-- `self.volume[..., c] = f(channel)` (line 41): apply `f` to every value of
channel `c` of the volume. -/
def mapChannel (vol : Volume) (c : ℕ) (f : ℚ → ℚ) : Volume :=
  vol.map fun fr => fr.map fun row => row.map fun px => setChan f c px

/-- One iteration of the normalization loop (lines 38-41): compute the
channel's global min and max; when `max > min` rescale the channel by
`(v - min) / (max - min)`, otherwise leave the volume as it is. -/
def normalizeChannel (vol : Volume) (c : ℕ) : Volume :=
  match (channelValues vol c).min?, (channelValues vol c).max? with
  | some mn, some mx =>
    if mn < mx then mapChannel vol c fun v => (v - mn) / (mx - mn) else vol
  | _, _ => vol

/-- The normalization loop `for c in range(self.volume.shape[-1])`
(lines 37-41). -/
def normalizeVolume (vol : Volume) : Volume :=
  (List.range (numChannels vol)).foldl normalizeChannel vol

/-- Volume construction (lines 15, 34-41): load frames (`_load_media`),
stack them (`np.stack`), convert to float (identity here) and normalize
each channel. -/
def buildVolume (frames : List Frame) : Except String Volume :=
  match loadMedia frames with
  | .error e => .error e
  | .ok fs =>
    match npStack fs with
    | .error e => .error e
    | .ok vol => .ok (normalizeVolume vol)

/-- The three radio-button views `('X-Y-T', 'Y-T-X', 'T-X-Y')` (line 60). -/
inductive View
  | xyt
  | ytx
  | txy
deriving DecidableEq

/-- The label string of each view as shown on the radio buttons. -/
def View.label : View → String
  | .xyt => "X-Y-T"
  | .ytx => "Y-T-X"
  | .txy => "T-X-Y"

/-- The number of animation frames of the current view, `frames` in
`start_animation` (lines 268-273): `self.time`, `self.width` or
`self.height`. -/
def depthRange (view : View) (vol : Volume) : ℕ :=
  match view with
  | .xyt => shapeT vol
  | .ytx => shapeW vol
  | .txy => shapeH vol

/-- The 2-D image `slice_data` computed by `update` for the current view and
depth index (lines 136-167):
`X-Y-T`: `self.volume[frame]` (line 138);
`Y-T-X`: `np.zeros((self.time, self.height, 3))` filled per channel with
`self.volume[:, :, frame, c]` (lines 148-150);
`T-X-Y`: `np.zeros((self.time, self.width, 3))` filled per channel with
`self.volume[:, frame, :, c]` (lines 160-162). -/
def sliceData (vol : Volume) (view : View) (frame : ℕ) : Frame :=
  match view with
  | .xyt => vol.getD frame []
  | .ytx =>
    (List.range (shapeT vol)).map fun t =>
      (List.range (shapeH vol)).map fun y =>
        (List.range 3).map fun c => getV vol t y frame c
  | .txy =>
    (List.range (shapeT vol)).map fun t =>
      (List.range (shapeW vol)).map fun x =>
        (List.range 3).map fun c => getV vol t frame x c

/-- The stack of images assembled by `export_button_clicked` before the
uint8 conversion (lines 298-312):
`X-Y-T`: `data = self.volume` (line 300);
`Y-T-X`: `data = np.zeros((W, time, height, 3))` with
`data[x, :, :, c] = self.volume[:, :, x, c]` (lines 303-306);
`T-X-Y`: `data = np.zeros((H, time, width, 3))` with
`data[y, :, :, c] = self.volume[:, y, :, c]` (lines 309-312). -/
def exportData (vol : Volume) (view : View) : List Frame :=
  match view with
  | .xyt => vol
  | .ytx =>
    (List.range (shapeW vol)).map fun x =>
      (List.range (shapeT vol)).map fun t =>
        (List.range (shapeH vol)).map fun y =>
          (List.range 3).map fun c => getV vol t y x c
  | .txy =>
    (List.range (shapeH vol)).map fun y =>
      (List.range (shapeT vol)).map fun t =>
        (List.range (shapeW vol)).map fun x =>
          (List.range 3).map fun c => getV vol t y x c

/-- Python `int(q)` / the C cast applied by `astype`: truncation toward
zero. -/
def pyInt (q : ℚ) : ℤ :=
  if q < 0 then -⌊-q⌋ else ⌊q⌋

/-- `(v * 255).astype(np.uint8)` on one value (lines 314-315): scale by 255,
truncate toward zero, and reduce modulo `2^8` (how the C cast stores an
out-of-range float into an unsigned 8-bit integer). -/
def npUint8 (v : ℚ) : ℤ :=
  pyInt (v * 255) % 256

/-- The byte images written by the export (line 315): `exportData` with
every value converted to uint8. -/
def exportBytes (vol : Volume) (view : View) : List (List (List (List ℤ))) :=
  (exportData vol view).map fun fr => fr.map fun row => row.map fun px => px.map npUint8

/-- The digit string value of a list of decimal digit characters. -/
def digitsVal (cs : List Char) : ℕ :=
  cs.foldl (fun n ch => 10 * n + (ch.toNat - 48)) 0

/-- Python `float(text)` on a plain decimal literal (an optional sign, then
digits with at most one decimal point); `none` models the `ValueError`
raised on any other input, e.g. `"abc"` (line 238). -/
def pyFloatLit (s : String) : Option ℚ :=
  let signed : List Char → Option ℚ := fun cs =>
    let intCs := cs.takeWhile (· != '.')
    let rest := cs.dropWhile (· != '.')
    match rest with
    | [] =>
      if intCs ≠ [] ∧ intCs.all Char.isDigit then some (digitsVal intCs : ℚ) else none
    | _ :: fracCs =>
      if (intCs ≠ [] ∨ fracCs ≠ []) ∧ intCs.all Char.isDigit ∧ fracCs.all Char.isDigit then
        some ((digitsVal intCs : ℚ) + (digitsVal fracCs : ℚ) / (10 : ℚ) ^ fracCs.length)
      else none
  match s.toList with
  | '-' :: cs => (signed cs).map (fun q => -q)
  | '+' :: cs => signed cs
  | cs => signed cs

/-- `update_fps_from_textbox` (lines 235-258): parse the text; on a
`ValueError` keep the previous rate; clamp non-positive input to `1` and
input above `1000` to `1000`; otherwise adopt the parsed value. -/
def updateFps (fps : ℚ) (text : String) : ℚ :=
  match pyFloatLit text with
  | none => fps
  | some v =>
    if v ≤ 0 then 1
    else if 1000 < v then 1000
    else v

/-- Python `str.lower()`: lower-case every character (the view labels are
plain ASCII). -/
def pyLower (s : String) : String :=
  String.mk (s.toList.map Char.toLower)

/-- The export file name (line 289):
`f"{self.base_name}_{self.current_view.lower()}_{int(self.fps)}fps.gif"`. -/
def exportFileName (baseName : String) (view : View) (fps : ℚ) : String :=
  baseName ++ "_" ++ pyLower view.label ++ "_" ++ toString (pyInt fps) ++ "fps.gif"

/-- `os.path.join('exports', output_filename)` (line 290). -/
def exportPath (baseName : String) (view : View) (fps : ℚ) : String :=
  "exports/" ++ exportFileName baseName view fps

/-- Modelled from the spec: the property claim C1 states of the constructed
volume — every channel has minimum `0.0` and maximum `1.0` unless it is
constant, in which case all of its values are `0.0`. -/
def specC1Holds (vol : Volume) : Prop :=
  ∀ c < numChannels vol,
    ((channelValues vol c).min? = some 0 ∧ (channelValues vol c).max? = some 1)
    ∨ ((channelValues vol c).min? = (channelValues vol c).max?
        ∧ ∀ v ∈ channelValues vol c, v = 0)

instance (vol : Volume) : Decidable (specC1Holds vol) := by
  unfold specC1Holds
  infer_instance

/-! ### Helper lemmas -/

/-- `List.min?_eq_some_iff` specialised to `ℚ`. -/
theorem rat_min?_eq_some_iff {l : List ℚ} {a : ℚ} :
    l.min? = some a ↔ a ∈ l ∧ ∀ b ∈ l, a ≤ b :=
  List.min?_eq_some_iff (fun x => le_refl x) (fun x y => min_choice x y)
    (fun _ _ _ => le_min_iff)

/-- `List.max?_eq_some_iff` specialised to `ℚ`. -/
theorem rat_max?_eq_some_iff {l : List ℚ} {a : ℚ} :
    l.max? = some a ↔ a ∈ l ∧ ∀ b ∈ l, b ≤ a :=
  List.max?_eq_some_iff (fun x => le_refl x) (fun x y => max_choice x y)
    (fun _ _ _ => max_le_iff)

/-- Writing channel `c` of a pixel leaves every other channel unchanged. -/
theorem setChan_getElem?_ne (f : ℚ → ℚ) {c c' : ℕ} (h : c' ≠ c) (px : Pixel) :
    (setChan f c px)[c']? = px[c']? := by
  induction px generalizing c c' with
  | nil => simp [setChan]
  | cons v vs ih =>
    cases c with
    | zero =>
      cases c' with
      | zero => exact absurd rfl h
      | succ n => simp [setChan]
    | succ m =>
      cases c' with
      | zero => simp [setChan]
      | succ n => simpa [setChan] using ih (fun hh => h (by omega))

/-- Writing channel `c` of a pixel maps exactly that channel's value. -/
theorem setChan_getElem?_self (f : ℚ → ℚ) (c : ℕ) (px : Pixel) :
    (setChan f c px)[c]? = px[c]?.map f := by
  induction px generalizing c with
  | nil => simp [setChan]
  | cons v vs ih =>
    cases c with
    | zero => simp [setChan]
    | succ m => simpa [setChan] using ih m

/-- `mapChannel` at `c` does not touch the values of another channel. -/
theorem channelValues_mapChannel_ne (vol : Volume) {c c' : ℕ} (f : ℚ → ℚ)
    (h : c' ≠ c) :
    channelValues (mapChannel vol c f) c' = channelValues vol c' := by
  simp only [channelValues, mapChannel, List.flatMap_map, List.filterMap_map,
    Function.comp_def, setChan_getElem?_ne f h]

/-- `mapChannel` at `c` maps the values of channel `c` pointwise. -/
theorem channelValues_mapChannel_self (vol : Volume) (c : ℕ) (f : ℚ → ℚ) :
    channelValues (mapChannel vol c f) c = (channelValues vol c).map f := by
  simp only [channelValues, mapChannel, List.flatMap_map, List.filterMap_map,
    Function.comp_def, setChan_getElem?_self f c, ← List.map_filterMap,
    ← List.map_flatMap]

/-- Normalizing channel `c'` does not touch the values of channel `c`. -/
theorem channelValues_normalizeChannel_ne (vol : Volume) {c c' : ℕ}
    (h : c ≠ c') :
    channelValues (normalizeChannel vol c') c = channelValues vol c := by
  unfold normalizeChannel
  cases (channelValues vol c').min? with
  | none => rfl
  | some mn =>
    cases (channelValues vol c').max? with
    | none => rfl
    | some mx =>
      simp only []
      split
      · exact channelValues_mapChannel_ne vol _ h
      · rfl

/-- Folding the normalization step over channels not containing `c` leaves
channel `c`'s values unchanged. -/
theorem channelValues_foldl_normalize (cs : List ℕ) (vol : Volume) (c : ℕ)
    (h : c ∉ cs) :
    channelValues (cs.foldl normalizeChannel vol) c = channelValues vol c := by
  induction cs generalizing vol with
  | nil => rfl
  | cons c' cs ih =>
    rw [List.mem_cons, not_or] at h
    rw [List.foldl_cons, ih _ h.2, channelValues_normalizeChannel_ne vol h.1]

/-- What the normalization loop does to the values of one channel: channels
with `min < max` are rescaled by `(v - min) / (max - min)`, all others are
untouched. -/
theorem channelValues_normalizeVolume (vol : Volume) (c : ℕ)
    (hc : c < numChannels vol) :
    channelValues (normalizeVolume vol) c =
      match (channelValues vol c).min?, (channelValues vol c).max? with
      | some mn, some mx =>
        if mn < mx then (channelValues vol c).map (fun v => (v - mn) / (mx - mn))
        else channelValues vol c
      | _, _ => channelValues vol c := by
  unfold normalizeVolume
  obtain ⟨k, hk⟩ : ∃ k, numChannels vol = (c + 1) + k :=
    ⟨numChannels vol - (c + 1), by omega⟩
  rw [hk, List.range_add, List.foldl_append, List.range_succ, List.foldl_append,
    List.foldl_cons, List.foldl_nil]
  rw [channelValues_foldl_normalize _ _ c (by simp [List.mem_map]; omega)]
  set base := (List.range c).foldl normalizeChannel vol with hbdef
  have hbase : channelValues base c = channelValues vol c :=
    channelValues_foldl_normalize _ _ c (by simp)
  unfold normalizeChannel
  rw [hbase]
  cases (channelValues vol c).min? with
  | none => exact hbase
  | some mn =>
    cases (channelValues vol c).max? with
    | none => exact hbase
    | some mx =>
      simp only []
      split
      · rw [channelValues_mapChannel_self, hbase]
      · exact hbase

/-- A successful `buildVolume` returns exactly the normalized stack of the
input frames. -/
theorem buildVolume_ok {frames : List Frame} {vol : Volume}
    (h : buildVolume frames = .ok vol) : vol = normalizeVolume frames := by
  unfold buildVolume loadMedia npStack at h
  cases frames with
  | nil => simp at h
  | cons f fs =>
    simp only [List.isEmpty_cons, Bool.false_eq_true, if_false] at h
    split at h
    · simp at h
    · rename_i x vol2 heq
      split at heq
      · simp only [Except.ok.injEq] at heq
        subst heq
        simp only [Except.ok.injEq] at h
        exact h.symm
      · simp at heq

/-- Rescaling a list with extremes `mn < mx` by `(v - mn) / (mx - mn)`
yields a list with minimum `0` and maximum `1`. -/
theorem rescaled_min?_max? (l : List ℚ) (mn mx : ℚ) (hmn : l.min? = some mn)
    (hmx : l.max? = some mx) (h : mn < mx) :
    (l.map fun v => (v - mn) / (mx - mn)).min? = some 0 ∧
      (l.map fun v => (v - mn) / (mx - mn)).max? = some 1 := by
  obtain ⟨hmem, hlb⟩ := rat_min?_eq_some_iff.mp hmn
  obtain ⟨hmem2, hub⟩ := rat_max?_eq_some_iff.mp hmx
  have hpos : 0 < mx - mn := sub_pos.mpr h
  constructor
  · apply rat_min?_eq_some_iff.mpr
    refine ⟨?_, ?_⟩
    · have h0 : (mn - mn) / (mx - mn) = 0 := by rw [sub_self, zero_div]
      exact h0 ▸ List.mem_map_of_mem _ hmem
    · intro b hb
      obtain ⟨a, ha, rfl⟩ := List.mem_map.mp hb
      exact div_nonneg (sub_nonneg.mpr (hlb a ha)) hpos.le
  · apply rat_max?_eq_some_iff.mpr
    refine ⟨?_, ?_⟩
    · have h1 : (mx - mn) / (mx - mn) = 1 := div_self hpos.ne'
      exact h1 ▸ List.mem_map_of_mem _ hmem2
    · intro b hb
      obtain ⟨a, ha, rfl⟩ := List.mem_map.mp hb
      rw [div_le_one hpos]
      exact sub_le_sub_right (hub a ha) mn

/-- Reading a mapped range below its bound. -/
theorem getD_map_range {α : Type} {n i : ℕ} (f : ℕ → α) (d : α) (h : i < n) :
    ((List.range n).map f).getD i d = f i := by
  rw [List.getD_eq_getElem?_getD, List.getElem?_map, List.getElem?_range h]
  rfl

/-! ### Claims -/

/-- Claim C1 (counterexample): a volume built from a single frame whose only
channel is constant at `5` keeps the value `5`; the channel is constant
(min equals max) yet its values are not all `0.0`, refuting the claim that
a constant channel ends up all zero. -/
theorem constantChannelKeepsValueCounterexample :
    buildVolume [[[[5]]]] = Except.ok [[[[5]]]]
    ∧ (channelValues [[[[(5 : ℚ)]]]] 0).min? = some 5
    ∧ (channelValues [[[[(5 : ℚ)]]]] 0).max? = some 5
    ∧ ¬ specC1Holds [[[[5]]]] :=
  ⟨by rfl, by decide, by decide, by decide⟩

/-- Claim C1 (amended): after volume construction, for every channel `c`
whose stacked values have minimum `mn` and maximum `mx`, if `mn < mx` the
normalized channel has minimum `0.0` and maximum `1.0`; if the channel is
constant (`mn = mx`) every value is left at the original constant `mn`
(which is `0` only when the constant itself was `0`). -/
theorem normalizedChannelExtremes
    (frames : List Frame) (vol : Volume) (c : ℕ) (mn mx : ℚ)
    (hbuild : buildVolume frames = Except.ok vol)
    (hc : c < numChannels frames)
    (hmn : (channelValues frames c).min? = some mn)
    (hmx : (channelValues frames c).max? = some mx) :
    (mn < mx → (channelValues vol c).min? = some 0
      ∧ (channelValues vol c).max? = some 1)
    ∧ (mn = mx → ∀ v ∈ channelValues vol c, v = mn) := by
  have hv := buildVolume_ok hbuild
  subst hv
  have hkey := channelValues_normalizeVolume frames c hc
  simp only [hmn, hmx] at hkey
  constructor
  · intro h
    rw [if_pos h] at hkey
    rw [hkey]
    exact rescaled_min?_max? _ mn mx hmn hmx h
  · intro h
    rw [if_neg (h ▸ lt_irrefl mn)] at hkey
    rw [hkey]
    intro v hvmem
    have h1 := (rat_min?_eq_some_iff.mp hmn).2 v hvmem
    have h2 := (rat_max?_eq_some_iff.mp hmx).2 v hvmem
    exact le_antisymm (h ▸ h2) h1

/-- Witness for the amended claim C1 at a concrete volume: one frame, one
row, two one-channel pixels with values `0` and `2`. -/
theorem normalizedChannelExtremesWitness :
    (channelValues [[[[(0 : ℚ)], [1]]]] 0).min? = some 0
    ∧ (channelValues [[[[(0 : ℚ)], [1]]]] 0).max? = some 1 :=
  (normalizedChannelExtremes [[[[0], [2]]]] [[[[0], [1]]]] 0 0 2 (by rfl)
    (by decide) (by decide) (by decide)).1 (by decide)

/-- Claim C2: during normalization a channel whose global maximum does not
exceed its global minimum is left exactly unchanged from the stacked
floating-point volume, and a channel with `max > min` is rescaled via
`(v - min) / (max - min)`. -/
theorem degenerateChannelsUnchanged
    (frames : List Frame) (vol : Volume) (c : ℕ) (mn mx : ℚ)
    (hbuild : buildVolume frames = Except.ok vol)
    (hc : c < numChannels frames)
    (hmn : (channelValues frames c).min? = some mn)
    (hmx : (channelValues frames c).max? = some mx) :
    (mx ≤ mn → channelValues vol c = channelValues frames c)
    ∧ (mn < mx →
        channelValues vol c
          = (channelValues frames c).map fun v => (v - mn) / (mx - mn)) := by
  have hv := buildVolume_ok hbuild
  subst hv
  have hkey := channelValues_normalizeVolume frames c hc
  simp only [hmn, hmx] at hkey
  exact ⟨fun h => by rwa [if_neg (not_lt.mpr h)] at hkey,
    fun h => by rwa [if_pos h] at hkey⟩

/-- Witness for claim C2 at a concrete volume with a degenerate constant
channel (both pixels carry `7` in channel 0) and a varying channel 1. -/
theorem degenerateChannelsUnchangedWitness :
    channelValues [[[[(7 : ℚ), 0], [7, 1]]]] 0
      = channelValues [[[[(7 : ℚ), 0], [7, 2]]]] 0 :=
  (degenerateChannelsUnchanged [[[[7, 0], [7, 2]]]] [[[[7, 0], [7, 1]]]] 0 7 7
    (by rfl) (by decide) (by decide) (by decide)).1 (le_refl 7)

/-- Claim C3: for the time-depth view (`X-Y-T`) the number of valid depth
indices is `T` (`frames = self.time`, line 269), and the displayed slice at
depth `t` is exactly `Volume[t]` (line 138), the `t`-th stacked frame. -/
theorem timeDepthSlice (vol : Volume) (t : ℕ) (h : t < shapeT vol) :
    depthRange View.xyt vol = shapeT vol
    ∧ sliceData vol View.xyt t = vol.get ⟨t, h⟩ := by
  refine ⟨rfl, ?_⟩
  show vol.getD t [] = _
  rw [List.getD_eq_getElem?_getD, List.getElem?_eq_getElem h, Option.getD_some]
  rfl

/-- Witness for claim C3: the slice at depth 1 of a two-frame volume is the
second frame. -/
theorem timeDepthSliceWitness :
    sliceData [[[[1]]], [[[2]]]] View.xyt 1 = [[[2]]] :=
  ((timeDepthSlice [[[[1]]], [[[2]]]] 1 (by decide)).2).trans (by decide)

/-- Claim C4: for the x-depth view (`Y-T-X`) the number of valid depth
indices is `W` (`frames = self.width`, line 271), the produced image has
`T` rows of `H` pixels with 3 channels (line 148), and its `(t, y, c)`
entry equals `Volume[t, y, x, c]` (line 150). -/
theorem xDepthSlice (vol : Volume) (x t y c : ℕ)
    (hx : x < shapeW vol) (ht : t < shapeT vol) (hy : y < shapeH vol)
    (hc : c < 3) :
    depthRange View.ytx vol = shapeW vol
    ∧ (sliceData vol View.ytx x).length = shapeT vol
    ∧ (∀ row ∈ sliceData vol View.ytx x,
        row.length = shapeH vol ∧ ∀ px ∈ row, px.length = 3)
    ∧ (((sliceData vol View.ytx x).getD t []).getD y []).getD c 0
        = getV vol t y x c := by
  refine ⟨rfl, by simp [sliceData], ?_, ?_⟩
  · intro row hrow
    simp only [sliceData, List.mem_map] at hrow
    obtain ⟨trow, -, rfl⟩ := hrow
    refine ⟨by simp, ?_⟩
    intro px hpx
    simp only [List.mem_map] at hpx
    obtain ⟨yv, -, rfl⟩ := hpx
    simp
  · show ((((List.range (shapeT vol)).map _).getD t []).getD y []).getD c 0 = _
    rw [getD_map_range _ _ ht, getD_map_range _ _ hy, getD_map_range _ _ hc]

/-- Witness for claim C4 on a 1-frame, 1x2, 3-channel volume at depth
`x = 1`. -/
theorem xDepthSliceWitness :
    (((sliceData [[[[1, 2, 3], [4, 5, 6]]]] View.ytx 1).getD 0 []).getD 0 []).getD 2 0
      = getV [[[[1, 2, 3], [4, 5, 6]]]] 0 0 1 2 :=
  (xDepthSlice [[[[1, 2, 3], [4, 5, 6]]]] 1 0 0 2 (by decide) (by decide)
    (by decide) (by decide)).2.2.2

/-- Claim C5: for the y-depth view (`T-X-Y`) the number of valid depth
indices is `H` (`frames = self.height`, line 273), the produced image has
`T` rows of `W` pixels with 3 channels (line 160), and its `(t, x, c)`
entry equals `Volume[t, y, x, c]` (line 162). -/
theorem yDepthSlice (vol : Volume) (y t x c : ℕ)
    (hy : y < shapeH vol) (ht : t < shapeT vol) (hx : x < shapeW vol)
    (hc : c < 3) :
    depthRange View.txy vol = shapeH vol
    ∧ (sliceData vol View.txy y).length = shapeT vol
    ∧ (∀ row ∈ sliceData vol View.txy y,
        row.length = shapeW vol ∧ ∀ px ∈ row, px.length = 3)
    ∧ (((sliceData vol View.txy y).getD t []).getD x []).getD c 0
        = getV vol t y x c := by
  refine ⟨rfl, by simp [sliceData], ?_, ?_⟩
  · intro row hrow
    simp only [sliceData, List.mem_map] at hrow
    obtain ⟨trow, -, rfl⟩ := hrow
    refine ⟨by simp, ?_⟩
    intro px hpx
    simp only [List.mem_map] at hpx
    obtain ⟨xv, -, rfl⟩ := hpx
    simp
  · show ((((List.range (shapeT vol)).map _).getD t []).getD x []).getD c 0 = _
    rw [getD_map_range _ _ ht, getD_map_range _ _ hx, getD_map_range _ _ hc]

/-- Witness for claim C5 on a 1-frame, 2x1, 3-channel volume at depth
`y = 1`. -/
theorem yDepthSliceWitness :
    (((sliceData [[[[1, 2, 3]], [[4, 5, 6]]]] View.txy 1).getD 0 []).getD 0 []).getD 1 0
      = getV [[[[1, 2, 3]], [[4, 5, 6]]]] 0 1 0 1 :=
  (yDepthSlice [[[[1, 2, 3]], [[4, 5, 6]]]] 1 0 0 1 (by decide) (by decide)
    (by decide) (by decide)).2.2.2

/-- Claim C9: the export batch covers the full depth range of the active
view — `exportData` holds exactly `depthRange` images (lines 299, 302,
308) — and, before the uint8 conversion, its `i`-th image equals the 2-D
slice the display path computes for depth index `i` (lines 136-167 versus
lines 298-312). -/
theorem exportMatchesDisplay (vol : Volume) (view : View) (i : ℕ)
    (h : i < depthRange view vol) :
    (exportData vol view).length = depthRange view vol
    ∧ (exportData vol view).getD i [] = sliceData vol view i := by
  cases view with
  | xyt => exact ⟨rfl, rfl⟩
  | ytx =>
    have h2 : i < shapeW vol := h
    refine ⟨by simp [exportData, depthRange], ?_⟩
    show ((List.range (shapeW vol)).map _).getD i [] = _
    rw [getD_map_range _ _ h2]
    rfl
  | txy =>
    have h2 : i < shapeH vol := h
    refine ⟨by simp [exportData, depthRange], ?_⟩
    show ((List.range (shapeH vol)).map _).getD i [] = _
    rw [getD_map_range _ _ h2]
    rfl

/-- Witness for claim C9: the export of the `Y-T-X` view of a 1-frame,
1x2-pixel volume contains as its second image the display slice at
depth 1. -/
theorem exportMatchesDisplayWitness :
    (exportData [[[[1], [2]]]] View.ytx).getD 1 []
      = sliceData [[[[1], [2]]]] View.ytx 1 :=
  (exportMatchesDisplay [[[[1], [2]]]] View.ytx 1 (by decide)).2

/-- Claim C6: from any starting rate, submitting `"0"`, `"-5"`, `"abc"`,
`"2000"` in sequence yields effective rates `1`, `1`, `1` (the non-numeric
input is rejected and the previous accepted value retained) and `1000`
(lines 235-258). -/
theorem fpsInputSequence (r : ℚ) :
    updateFps r "0" = 1
    ∧ updateFps (updateFps r "0") "-5" = 1
    ∧ updateFps (updateFps (updateFps r "0") "-5") "abc" = 1
    ∧ updateFps (updateFps (updateFps (updateFps r "0") "-5") "abc") "2000"
        = 1000 := by
  have hp : pyFloatLit "0" = some 0 := by decide
  have h0 : updateFps r "0" = 1 := by
    unfold updateFps
    rw [hp]
    norm_num
  refine ⟨h0, ?_, ?_, ?_⟩ <;> rw [h0] <;> decide

/-- Witness for claim C6 starting from the default rate 20. -/
theorem fpsInputSequenceWitness :
    updateFps (updateFps (updateFps (updateFps 20 "0") "-5") "abc") "2000"
      = 1000 :=
  (fpsInputSequence 20).2.2.2

/-- Claim C7 (counterexample): at rate 23.7 the export path carries `23fps`
— `int(self.fps)` truncates (line 289) — not the claimed `round`-based
`24fps`. -/
theorem exportPathRoundCounterexample :
    exportPath "clip" View.ytx (237 / 10) = "exports/clip_y-t-x_23fps.gif"
    ∧ round ((237 : ℚ) / 10) = 24
    ∧ exportPath "clip" View.ytx (237 / 10) ≠ "exports/clip_y-t-x_24fps.gif" :=
  ⟨by decide, by decide, by decide⟩

/-- Claim C7 (amended): for every base name, view and nonnegative rate the
export path is `exports/<base>_<view-lowercased>_<n>fps.gif` where `n` is
the rate truncated toward zero (`int(rate)`, which for nonnegative rates is
`⌊rate⌋`) — not rounded to nearest. -/
theorem exportPathConvention (base : String) (view : View) (fps : ℚ)
    (h : 0 ≤ fps) :
    exportPath base view fps
      = "exports/"
        ++ (base ++ "_" ++ pyLower view.label ++ "_" ++ toString ⌊fps⌋
            ++ "fps.gif") := by
  unfold exportPath exportFileName pyInt
  rw [if_neg (not_lt.mpr h)]

/-- Witness for the amended claim C7 at base `"clip"`, view `X-Y-T` and
rate `23.7`. -/
theorem exportPathConventionWitness :
    exportPath "clip" View.xyt (237 / 10) = "exports/clip_x-y-t_23fps.gif" :=
  (exportPathConvention "clip" View.xyt (237 / 10) (by decide)).trans (by decide)

/-- Claim C8 (evidence for the code divergence): building from two frames of
shapes `(1, 1, 3)` and `(2, 1, 3)` fails — but with the `ValueError` that
`np.stack` itself raises inside the stacking step; `__init__` (line 34)
passes the decoded frames straight to `np.stack` with no prior shape
validation.  No silent truncation or padding occurs. -/
theorem mismatchedShapesStackError :
    buildVolume [[[[0, 0, 0]]], [[[0, 0, 0]], [[0, 0, 0]]]]
      = Except.error "all input arrays must have the same shape" := by rfl

/-- Claim C10: the export's uint8 conversion (lines 314-315) maps `v` to
`truncate(v * 255) mod 256`; on `v ∈ [0, 1]` this is `⌊v * 255⌋ ∈ [0, 255]`
(no wrapping), while every integer pixel constant `n > 1` — which
normalization leaves unchanged — wraps modulo 256 instead of representing
`n`: concretely, a volume constant at `2` exports bytes `254`. -/
theorem uint8ConversionWrap :
    (∀ v : ℚ, 0 ≤ v → v ≤ 1 →
      npUint8 v = ⌊v * 255⌋ ∧ 0 ≤ npUint8 v ∧ npUint8 v ≤ 255)
    ∧ (∀ n : ℤ, 1 < n →
        npUint8 (n : ℚ) = 255 * n % 256 ∧ npUint8 (n : ℚ) ≠ 255 * n)
    ∧ buildVolume [[[[2]]], [[[2]]]] = Except.ok [[[[2]]], [[[2]]]]
    ∧ exportBytes [[[[2]]], [[[2]]]] View.xyt = [[[[254]]], [[[254]]]] := by
  refine ⟨?_, ?_, by rfl, by rfl⟩
  · intro v h0 h1
    have hnn : 0 ≤ v * 255 := by positivity
    have hfl : pyInt (v * 255) = ⌊v * 255⌋ := by
      unfold pyInt
      rw [if_neg (not_lt.mpr hnn)]
    have hlb : 0 ≤ ⌊v * 255⌋ := Int.floor_nonneg.mpr hnn
    have hub : ⌊v * 255⌋ ≤ 255 := by
      have : v * 255 ≤ 255 := by nlinarith
      calc ⌊v * 255⌋ ≤ ⌊(255 : ℚ)⌋ := Int.floor_le_floor this
        _ = 255 := by norm_num
    refine ⟨?_, ?_, ?_⟩
    · unfold npUint8
      rw [hfl, Int.emod_eq_of_lt hlb (by omega)]
    · unfold npUint8
      rw [hfl, Int.emod_eq_of_lt hlb (by omega)]
      exact hlb
    · unfold npUint8
      rw [hfl, Int.emod_eq_of_lt hlb (by omega)]
      exact hub
  · intro n hn
    have hcast : (n : ℚ) * 255 = ((255 * n : ℤ) : ℚ) := by push_cast; ring
    have hval : npUint8 (n : ℚ) = 255 * n % 256 := by
      unfold npUint8 pyInt
      rw [hcast, if_neg (not_lt.mpr (Int.cast_nonneg.mpr (by omega))),
        Int.floor_intCast]
    refine ⟨hval, ?_⟩
    rw [hval]
    omega

/-- Witness for claim C10 at `v = 1/2` (in-range) and `n = 2`
(wrapping). -/
theorem uint8ConversionWrapWitness :
    npUint8 (1 / 2) = ⌊(1 / 2 : ℚ) * 255⌋
    ∧ npUint8 ((2 : ℤ) : ℚ) = 255 * 2 % 256 :=
  ⟨(uint8ConversionWrap.1 (1 / 2) (by decide) (by decide)).1,
    (uint8ConversionWrap.2.1 2 (by decide)).1⟩

end VideoToSpacetime
